import Mathlib

/-!
Shallow embedding of the `portfolio-aws-account-lifecycle` repository
(`src/account_creator.py`, `src/account_closer.py`, `src/ssm_client.py`,
`src/config.py`, `src/main.py`) together with proofs about the embedded
functions.

External effects (AWS API calls, `time.sleep`, the SSM parameter store)
are modelled by explicit inputs: a polling loop receives the sequence of
statuses the provider would return fetch by fetch, and returns alongside
its result the number of fetches performed and the sleeps executed; the
parameter store is a map from parameter names to stored string values.
-/

namespace AccountLifecycle

/-- Python truthiness of an optional string argument (`if x:`):
`None` and the empty string are falsy, every other string is truthy. -/
def pyTruthy : Option String → Bool
  | none => false
  | some s => s ≠ ""

/-! ### `sanitize_account_name` (src/account_creator.py lines 11-17) -/

/-- `[a-z0-9]`: a lower-case ASCII letter or digit. -/
def isLowerAlnum (c : Char) : Bool :=
  (('a' ≤ c && c ≤ 'z') || ('0' ≤ c && c ≤ '9'))

/-- A character allowed by the class `[a-z0-9-]`. -/
def isAllowed (c : Char) : Bool :=
  isLowerAlnum c || c = '-'

/-- `re.sub(r"[^a-z0-9-]", "-", s)`: replace every character outside
`[a-z0-9-]` with a hyphen. -/
def substituteDisallowed (l : List Char) : List Char :=
  l.map (fun c => if isAllowed c then c else '-')

/-- `re.sub(r"-+", "-", s)`: collapse every run of hyphens to a single
hyphen. -/
def collapseHyphens : List Char → List Char
  | [] => []
  | [c] => [c]
  | c1 :: c2 :: rest =>
    if c1 = '-' && c2 = '-' then collapseHyphens (c2 :: rest)
    else c1 :: collapseHyphens (c2 :: rest)

/-- Python `str.strip(chars)`: remove the characters satisfying `p` from
both ends of the string. -/
def stripChars (p : Char → Bool) (l : List Char) : List Char :=
  List.rdropWhile p (l.dropWhile p)

/-- The sanitized name before the final truncation `[:60]`:
`name.lower().strip()`, then the two `re.sub` rewrites, then
`.strip("-")`. -/
def sanitizeNoTrunc (name : List Char) : List Char :=
  stripChars (fun c => c = '-')
    (collapseHyphens
      (substituteDisallowed
        (stripChars Char.isWhitespace (name.map Char.toLower))))

/-- `sanitize_account_name` from src/account_creator.py: normalize an
account name and truncate the result to 60 characters. -/
def sanitize_account_name (name : List Char) : List Char :=
  (sanitizeNoTrunc name).take 60

/-- Adjacent characters are never both hyphens. -/
def NoConsecHyphens (l : List Char) : Prop :=
  l.Chain' (fun a b => ¬(a = '-' ∧ b = '-'))

instance (l : List Char) : Decidable (NoConsecHyphens l) := by
  unfold NoConsecHyphens; infer_instance

/-- Matching the regex `^[a-z0-9]([a-z0-9-]*[a-z0-9])?$`: nonempty, first
and last characters in `[a-z0-9]`, every character in `[a-z0-9-]`. -/
def matchesNameRegex (l : List Char) : Bool :=
  match l.head?, l.getLast? with
  | some h, some t => isLowerAlnum h && isLowerAlnum t && l.all isAllowed
  | _, _ => false

example : sanitize_account_name "My Account!".toList = "my-account".toList := by decide
example : sanitize_account_name "-my--account-".toList = "my-account".toList := by decide
example : (sanitize_account_name (List.replicate 100 'a')).length = 60 := by decide

/-- The input exercising truncation at a hyphen boundary: `"a-"` repeated
40 times (80 characters). -/
def ceC1 : List Char := (List.replicate 40 ['a', '-']).flatten

theorem collapseHyphens_cons (c : Char) (l : List Char) :
    ∃ t, collapseHyphens (c :: l) = c :: t := by
  induction l generalizing c with
  | nil => exact ⟨[], rfl⟩
  | cons c2 rest ih =>
    by_cases h : c = '-' ∧ c2 = '-'
    · obtain ⟨h1, h2⟩ := h
      subst h1; subst h2
      obtain ⟨t, ht⟩ := ih '-'
      exact ⟨t, by simp [collapseHyphens, ht]⟩
    · refine ⟨collapseHyphens (c2 :: rest), ?_⟩
      simp only [collapseHyphens]
      rw [if_neg]
      simp only [Bool.and_eq_true, decide_eq_true_eq]
      exact h

theorem noConsecHyphens_collapseHyphens :
    ∀ l : List Char, NoConsecHyphens (collapseHyphens l)
  | [] => by simp [collapseHyphens, NoConsecHyphens]
  | [c] => by simp [collapseHyphens, NoConsecHyphens]
  | c1 :: c2 :: rest => by
    have ih := noConsecHyphens_collapseHyphens (c2 :: rest)
    by_cases h : c1 = '-' ∧ c2 = '-'
    · obtain ⟨h1, h2⟩ := h
      subst h1; subst h2
      simpa [collapseHyphens] using ih
    · obtain ⟨t, ht⟩ := collapseHyphens_cons c2 rest
      simp only [collapseHyphens]
      rw [if_neg (by simp only [Bool.and_eq_true, decide_eq_true_eq]; exact h)]
      unfold NoConsecHyphens at ih ⊢
      rw [ht] at ih ⊢
      exact (List.chain'_cons).mpr ⟨h, ih⟩

theorem mem_collapseHyphens {c : Char} :
    ∀ {l : List Char}, c ∈ collapseHyphens l → c ∈ l
  | [], h => by simp [collapseHyphens] at h
  | [a], h => by simp [collapseHyphens] at h; simp [h]
  | a :: b :: rest, h => by
    simp only [collapseHyphens] at h
    split at h
    · exact List.mem_cons_of_mem a (mem_collapseHyphens h)
    · rcases List.mem_cons.mp h with rfl | h'
      · exact List.mem_cons_self _ _
      · exact List.mem_cons_of_mem a (mem_collapseHyphens h')

theorem stripChars_isInfix (p : Char → Bool) (l : List Char) :
    stripChars p l <:+: l :=
  ((List.rdropWhile_prefix p (l.dropWhile p)).isInfix).trans
    ((List.dropWhile_suffix p).isInfix)

theorem allowed_substituteDisallowed {c : Char} {l : List Char}
    (h : c ∈ substituteDisallowed l) : isAllowed c = true := by
  simp only [substituteDisallowed, List.mem_map] at h
  obtain ⟨a, _, rfl⟩ := h
  by_cases ha : isAllowed a = true
  · simp only [if_pos ha]; exact ha
  · rw [if_neg ha]; decide

theorem allowed_sanitizeNoTrunc {c : Char} {name : List Char}
    (h : c ∈ sanitizeNoTrunc name) : isAllowed c = true := by
  have h1 : c ∈ collapseHyphens (substituteDisallowed
      (stripChars Char.isWhitespace (name.map Char.toLower))) :=
    (stripChars_isInfix _ _).sublist.mem h
  exact allowed_substituteDisallowed (mem_collapseHyphens h1)

theorem noConsecHyphens_sanitizeNoTrunc (name : List Char) :
    NoConsecHyphens (sanitizeNoTrunc name) :=
  List.Chain'.infix (noConsecHyphens_collapseHyphens _) (stripChars_isInfix _ _)

theorem mem_of_head?_eq_some {α : Type} {l : List α} {c : α}
    (h : l.head? = some c) : c ∈ l := by
  cases l with
  | nil => simp at h
  | cons a t => simp at h; simp [h]

theorem head?_of_prefix {α : Type} {l₁ l₂ : List α} {c : α}
    (h : l₁ <+: l₂) (hc : l₁.head? = some c) : l₂.head? = some c := by
  obtain ⟨t, rfl⟩ := h
  cases l₁ with
  | nil => simp at hc
  | cons a l => simp at hc; simp [hc]

theorem head?_dropWhile_false {p : Char → Bool} {c : Char} :
    ∀ {l : List Char}, (l.dropWhile p).head? = some c → p c = false
  | [], h => by simp [List.dropWhile] at h
  | a :: l, h => by
    by_cases pa : p a = true
    · rw [List.dropWhile_cons, if_pos pa] at h
      exact head?_dropWhile_false h
    · rw [List.dropWhile_cons, if_neg pa] at h
      simp only [List.head?_cons, Option.some.injEq] at h
      rw [← h]
      exact Bool.not_eq_true _ |>.mp pa

theorem head?_sanitizeNoTrunc {name : List Char} {c : Char}
    (h : (sanitizeNoTrunc name).head? = some c) : isLowerAlnum c = true := by
  have hmem : c ∈ sanitizeNoTrunc name := mem_of_head?_eq_some h
  have hall : isAllowed c = true := allowed_sanitizeNoTrunc hmem
  have hdw : ((collapseHyphens (substituteDisallowed
      (stripChars Char.isWhitespace (name.map Char.toLower)))).dropWhile
        (fun c => decide (c = '-'))).head? = some c :=
    head?_of_prefix (List.rdropWhile_prefix _ _) h
  have hne : (decide (c = '-')) = false := head?_dropWhile_false hdw
  simp only [isAllowed, Bool.or_eq_true] at hall
  rcases hall with h' | h'
  · exact h'
  · rw [h'] at hne; simp at hne

theorem head?_take_eq_some {α : Type} {n : Nat} {l : List α} {c : α}
    (h : (l.take n).head? = some c) : l.head? = some c :=
  head?_of_prefix (List.take_prefix n l) h

/-- Claim C1 (amended): for every input, `sanitize_account_name` returns a
string of length at most 60 with no two consecutive hyphens whose
characters all lie in `[a-z0-9-]` and whose first character, when the
result is nonempty, lies in `[a-z0-9]`; and whenever the sanitized name
before truncation already fits in 60 characters, the result matches
`^[a-z0-9]([a-z0-9-]*[a-z0-9])?$` or is empty.  (The original claim fails
only when truncation to 60 characters cuts directly after a hyphen, in
which case the result ends in a hyphen.) -/
theorem sanitize_account_name_spec (name : List Char) :
    (sanitize_account_name name).length ≤ 60
    ∧ NoConsecHyphens (sanitize_account_name name)
    ∧ (∀ c ∈ sanitize_account_name name, isAllowed c = true)
    ∧ (∀ c, (sanitize_account_name name).head? = some c → isLowerAlnum c = true)
    ∧ ((sanitizeNoTrunc name).length ≤ 60 →
        (matchesNameRegex (sanitize_account_name name) = true
          ∨ sanitize_account_name name = [])) := by
  refine ⟨List.length_take_le 60 _, ?_, ?_, ?_, ?_⟩
  · exact List.Chain'.prefix (noConsecHyphens_sanitizeNoTrunc name) (List.take_prefix _ _)
  · intro c hc
    exact allowed_sanitizeNoTrunc (List.mem_of_mem_take hc)
  · intro c hc
    exact head?_sanitizeNoTrunc (head?_take_eq_some hc)
  · intro hlen
    rw [sanitize_account_name, List.take_of_length_le hlen]
    by_cases hnil : sanitizeNoTrunc name = []
    · exact Or.inr hnil
    · left
      have hh : (sanitizeNoTrunc name).head? =
          some ((sanitizeNoTrunc name).head hnil) := List.head?_eq_head hnil
      have hl : (sanitizeNoTrunc name).getLast? =
          some ((sanitizeNoTrunc name).getLast hnil) :=
        List.getLast?_eq_getLast _ hnil
      have hheadA : isLowerAlnum ((sanitizeNoTrunc name).head hnil) = true :=
        head?_sanitizeNoTrunc hh
      have hlastmem : (sanitizeNoTrunc name).getLast hnil ∈ sanitizeNoTrunc name :=
        List.getLast_mem hnil
      have hlastAll : isAllowed ((sanitizeNoTrunc name).getLast hnil) = true :=
        allowed_sanitizeNoTrunc hlastmem
      have hlastNe : ¬((fun c => decide (c = '-'))
          ((sanitizeNoTrunc name).getLast hnil) = true) :=
        List.rdropWhile_last_not _ _ hnil
      have hlastA : isLowerAlnum ((sanitizeNoTrunc name).getLast hnil) = true := by
        simp only [decide_eq_true_eq] at hlastNe
        simp only [isAllowed, Bool.or_eq_true, decide_eq_true_eq] at hlastAll
        rcases hlastAll with h' | h'
        · exact h'
        · exact absurd h' hlastNe
      have hall : (sanitizeNoTrunc name).all isAllowed = true :=
        List.all_eq_true.mpr (fun c hc => allowed_sanitizeNoTrunc hc)
      simp only [matchesNameRegex, hh, hl]
      simp [hheadA, hlastA, hall]

/-- Witness for `sanitize_account_name_spec`: on input `"My Account!"`
the result is `"my-account"`, whose first character `m` is alphanumeric,
and the pre-truncation length fits in 60, so the regex disjunct applies. -/
theorem sanitize_account_name_spec_witness :
    isLowerAlnum 'm' = true
    ∧ (matchesNameRegex (sanitize_account_name ("My Account!".toList)) = true
        ∨ sanitize_account_name ("My Account!".toList) = []) :=
  ⟨(sanitize_account_name_spec ("My Account!".toList)).2.2.2.1 'm' (by decide),
   (sanitize_account_name_spec ("My Account!".toList)).2.2.2.2 (by decide)⟩

/-- Claim C1 counterexample: the original claim says the result of
`sanitize_account_name` matches `^[a-z0-9]([a-z0-9-]*[a-z0-9])?$` or is
empty — refuted: on `"a-"` repeated 40 times, the pre-truncation result
has 79 characters and ends in `a`, but truncation to 60 characters cuts
directly after a hyphen, so the result ends in `-` and matches neither
the regex nor the empty string. -/
theorem sanitize_account_name_claim_counterexample :
    (sanitize_account_name ceC1).getLast? = some '-'
    ∧ ¬(matchesNameRegex (sanitize_account_name ceC1) = true
        ∨ sanitize_account_name ceC1 = []) := by
  constructor
  · decide
  · decide

/-! ### `poll_account_closure` (src/account_closer.py lines 38-52) -/

/-- The polling loop of `poll_account_closure`, with the provider
modelled by the sequence of statuses it reports: `statuses i` is the
`Account.Status` returned by the `i`-th `describe_account` call.  The
value is `(result, fetches, sleeps)`: the returned status string, the
number of `describe_account` calls performed, and the number of
`time.sleep` calls executed.  Each loop iteration fetches once, returns
the status if it is not `ACTIVE`, and otherwise sleeps and continues;
after `max_attempts` iterations the loop falls through and the function
returns `"ACTIVE"`. -/
def pollClosureGo (statuses : Nat → String) (idx : Nat) :
    Nat → String × Nat × Nat
  | 0 => ("ACTIVE", 0, 0)
  | rem + 1 =>
    let st := statuses idx
    if st = "ACTIVE" then
      let r := pollClosureGo statuses (idx + 1) rem
      (r.1, r.2.1 + 1, r.2.2 + 1)
    else (st, 1, 0)

/-- `poll_account_closure` from src/account_closer.py. -/
def poll_account_closure (statuses : Nat → String) (maxAttempts : Nat) :
    String × Nat × Nat :=
  pollClosureGo statuses 0 maxAttempts

/-- Among `f` consecutive fetches starting at fetch `idx`, the number
whose reported status is `ACTIVE`. -/
def countActiveFrom (statuses : Nat → String) (idx : Nat) : Nat → Nat
  | 0 => 0
  | f + 1 =>
    (if statuses idx = "ACTIVE" then 1 else 0) + countActiveFrom statuses (idx + 1) f

/-- Among the first `f` fetches, the number of adjacent pairs of fetches
that both reported `ACTIVE`. -/
def consecutiveActivePairs (statuses : Nat → String) (f : Nat) : Nat :=
  ((List.range (f - 1)).filter
    (fun i => decide (statuses i = "ACTIVE" ∧ statuses (i + 1) = "ACTIVE"))).length

theorem pollClosureGo_sleeps (statuses : Nat → String) :
    ∀ (fuel idx : Nat),
      (pollClosureGo statuses idx fuel).2.2
        = countActiveFrom statuses idx (pollClosureGo statuses idx fuel).2.1
  | 0, idx => by simp [pollClosureGo, countActiveFrom]
  | fuel + 1, idx => by
    by_cases h : statuses idx = "ACTIVE"
    · have ih := pollClosureGo_sleeps statuses fuel (idx + 1)
      simp only [pollClosureGo, h, if_true, if_pos]
      simp only [countActiveFrom, h, if_pos]
      omega
    · simp [pollClosureGo, h, countActiveFrom]

theorem pollClosureGo_allActive (statuses : Nat → String) :
    ∀ (fuel idx : Nat), (∀ i, i < fuel → statuses (idx + i) = "ACTIVE") →
      pollClosureGo statuses idx fuel = ("ACTIVE", fuel, fuel)
  | 0, idx, _ => by simp [pollClosureGo]
  | fuel + 1, idx, h => by
    have h0 : statuses idx = "ACTIVE" := by
      have := h 0 (Nat.succ_pos fuel)
      simpa using this
    have ih := pollClosureGo_allActive statuses fuel (idx + 1) (fun i hi => by
      have := h (i + 1) (Nat.succ_lt_succ hi)
      rwa [← Nat.add_assoc, Nat.add_right_comm] at this)
    simp [pollClosureGo, h0, ih]

theorem pollClosureGo_firstNonActive (statuses : Nat → String) :
    ∀ (fuel idx k : Nat), k < fuel →
      (∀ i, i < k → statuses (idx + i) = "ACTIVE") →
      statuses (idx + k) ≠ "ACTIVE" →
      pollClosureGo statuses idx fuel = (statuses (idx + k), k + 1, k)
  | 0, _, k, hk, _, _ => absurd hk (Nat.not_lt_zero k)
  | fuel + 1, idx, 0, _, _, hne => by
    rw [Nat.add_zero] at hne
    simp [pollClosureGo, hne]
  | fuel + 1, idx, k + 1, hk, hact, hne => by
    have h0 : statuses idx = "ACTIVE" := by
      have := hact 0 (Nat.succ_pos k)
      simpa using this
    have ih := pollClosureGo_firstNonActive statuses fuel (idx + 1) k
      (Nat.lt_of_succ_lt_succ hk)
      (fun i hi => by
        have := hact (i + 1) (Nat.succ_lt_succ hi)
        rwa [← Nat.add_assoc, Nat.add_right_comm] at this)
      (by rwa [← Nat.add_assoc, Nat.add_right_comm] at hne)
    have heq : idx + (k + 1) = idx + 1 + k := by omega
    rw [heq]
    simp [pollClosureGo, h0, ih]

/-- Claim C2 counterexample: the original claim says the number of sleep
calls equals the number of pairs of consecutive `ACTIVE` fetches (so no
sleep after the final fetch) — refuted: with every fetch reporting
`ACTIVE` and `max_attempts = 2`, the loop sleeps after each of the two
`ACTIVE` fetches (including the final one before the timeout return), so
there are 2 sleeps but only 1 consecutive-`ACTIVE` pair. -/
theorem poll_account_closure_claim_counterexample :
    (poll_account_closure (fun _ => "ACTIVE") 2).2.2 = 2
    ∧ consecutiveActivePairs (fun _ => "ACTIVE")
        (poll_account_closure (fun _ => "ACTIVE") 2).2.1 = 1
    ∧ ¬((poll_account_closure (fun _ => "ACTIVE") 2).2.2
        = consecutiveActivePairs (fun _ => "ACTIVE")
            (poll_account_closure (fun _ => "ACTIVE") 2).2.1) := by
  refine ⟨by decide, by decide, by decide⟩

/-- Claim C2 (amended): `poll_account_closure` performs exactly one fetch
and zero sleeps when the first fetched status is not `ACTIVE`; when every
fetch reports `ACTIVE` it returns `"ACTIVE"` after exactly `max_attempts`
fetches; it returns the new status as soon as a fetch reports a
non-`ACTIVE` status (after `k` `ACTIVE` fetches it fetches `k + 1` times
and sleeps `k` times); and in every run the number of sleeps equals the
number of `ACTIVE` fetches — one sleep after every `ACTIVE` fetch,
including the final fetch when attempts are exhausted (not one sleep per
pair of consecutive `ACTIVE` fetches as originally claimed). -/
theorem poll_account_closure_spec (statuses : Nat → String) (n : Nat) :
    (0 < n → statuses 0 ≠ "ACTIVE" →
      poll_account_closure statuses n = (statuses 0, 1, 0))
    ∧ ((∀ i, i < n → statuses i = "ACTIVE") →
      poll_account_closure statuses n = ("ACTIVE", n, n))
    ∧ (∀ k, k < n → (∀ i, i < k → statuses i = "ACTIVE") →
        statuses k ≠ "ACTIVE" →
        poll_account_closure statuses n = (statuses k, k + 1, k))
    ∧ (poll_account_closure statuses n).2.2
        = countActiveFrom statuses 0 (poll_account_closure statuses n).2.1 := by
  refine ⟨?_, ?_, ?_, ?_⟩
  · intro hn h0
    have := pollClosureGo_firstNonActive statuses n 0 0 hn
      (fun i hi => absurd hi (Nat.not_lt_zero i)) (by simpa using h0)
    simpa [poll_account_closure] using this
  · intro h
    have := pollClosureGo_allActive statuses n 0 (fun i hi => by
      simpa using h i hi)
    simpa [poll_account_closure] using this
  · intro k hk hact hne
    have := pollClosureGo_firstNonActive statuses n 0 k hk
      (fun i hi => by simpa using hact i hi) (by simpa using hne)
    simpa [poll_account_closure] using this
  · exact pollClosureGo_sleeps statuses n 0

/-- Witness for `poll_account_closure_spec`: two `ACTIVE` fetches
followed by a `SUSPENDED` fetch with `max_attempts = 5` yields result
`SUSPENDED` after 3 fetches and 2 sleeps. -/
theorem poll_account_closure_spec_witness :
    poll_account_closure (fun i => if i < 2 then "ACTIVE" else "SUSPENDED") 5
      = ("SUSPENDED", 3, 2) := by
  exact (poll_account_closure_spec
      (fun i => if i < 2 then "ACTIVE" else "SUSPENDED") 5).2.2.1
    2 (by decide) (by decide) (by decide)

/-! ### `poll_account_creation` (src/account_creator.py lines 40-59) -/

/-- The `State` field of a `CreateAccountStatus` record; the provider API
reports exactly these three states. -/
inductive CreateState where
  | inProgress
  | succeeded
  | failed
  deriving DecidableEq

/-- A `CreateAccountStatus` record as the polling loop reads it:
`State`, `AccountId` (meaningful on success) and `FailureReason`
(meaningful on failure). -/
structure CreateStatusRec where
  state : CreateState
  accountId : String
  failureReason : String
  deriving DecidableEq

/-- How `poll_account_creation` ends: returning the status record
normally, or aborting the process (`sys.exit(1)`), which happens on a
`FAILED` state and on polling timeout. -/
inductive PollCreationOutcome where
  | returned (status : CreateStatusRec)
  | aborted
  deriving DecidableEq

/-- The polling loop of `poll_account_creation`: `statuses i` is the
`CreateAccountStatus` record returned by the `i`-th
`describe_create_account_status` call.  The value is
`(outcome, fetches)`.  Each iteration fetches once, returns the record on
`SUCCEEDED`, exits on `FAILED`, and otherwise sleeps and continues; when
all `max_attempts` iterations stay non-terminal the function exits. -/
def pollCreationGo (statuses : Nat → CreateStatusRec) (idx : Nat) :
    Nat → PollCreationOutcome × Nat
  | 0 => (.aborted, 0)
  | rem + 1 =>
    let st := statuses idx
    match st.state with
    | .succeeded => (.returned st, 1)
    | .failed => (.aborted, 1)
    | .inProgress =>
      let r := pollCreationGo statuses (idx + 1) rem
      (r.1, r.2 + 1)

/-- `poll_account_creation` from src/account_creator.py. -/
def poll_account_creation (statuses : Nat → CreateStatusRec)
    (maxAttempts : Nat) : PollCreationOutcome × Nat :=
  pollCreationGo statuses 0 maxAttempts

theorem pollCreationGo_allInProgress (statuses : Nat → CreateStatusRec) :
    ∀ (fuel idx : Nat),
      (∀ i, i < fuel → (statuses (idx + i)).state = .inProgress) →
      pollCreationGo statuses idx fuel = (.aborted, fuel)
  | 0, idx, _ => by simp [pollCreationGo]
  | fuel + 1, idx, h => by
    have h0 : (statuses idx).state = .inProgress := by
      have := h 0 (Nat.succ_pos fuel)
      simpa using this
    have ih := pollCreationGo_allInProgress statuses fuel (idx + 1) (fun i hi => by
      have := h (i + 1) (Nat.succ_lt_succ hi)
      rwa [← Nat.add_assoc, Nat.add_right_comm] at this)
    simp [pollCreationGo, h0, ih]

theorem pollCreationGo_firstTerminal (statuses : Nat → CreateStatusRec) :
    ∀ (fuel idx k : Nat), k < fuel →
      (∀ i, i < k → (statuses (idx + i)).state = .inProgress) →
      (statuses (idx + k)).state ≠ .inProgress →
      pollCreationGo statuses idx fuel =
        ((if (statuses (idx + k)).state = .succeeded then
            .returned (statuses (idx + k)) else .aborted), k + 1)
  | 0, _, k, hk, _, _ => absurd hk (Nat.not_lt_zero k)
  | fuel + 1, idx, 0, _, _, hne => by
    rw [Nat.add_zero] at hne ⊢
    rcases hst : (statuses idx).state with _ | _ | _
    · exact absurd hst hne
    · simp [pollCreationGo, hst]
    · simp [pollCreationGo, hst]
  | fuel + 1, idx, k + 1, hk, hact, hne => by
    have h0 : (statuses idx).state = .inProgress := by
      have := hact 0 (Nat.succ_pos k)
      simpa using this
    have ih := pollCreationGo_firstTerminal statuses fuel (idx + 1) k
      (Nat.lt_of_succ_lt_succ hk)
      (fun i hi => by
        have := hact (i + 1) (Nat.succ_lt_succ hi)
        rwa [← Nat.add_assoc, Nat.add_right_comm] at this)
      (by rw [Nat.add_right_comm]; rwa [← Nat.add_assoc] at hne)
    have heq : idx + (k + 1) = idx + 1 + k := by omega
    rw [heq]
    simp [pollCreationGo, h0, ih]

/-- Whether some fetch among the first `n`, the first one with a terminal
state, reports `SUCCEEDED`. -/
def firstTerminalSucceeds (statuses : Nat → CreateStatusRec) (n : Nat) : Prop :=
  ∃ k, k < n ∧ (∀ i, i < k → (statuses i).state = .inProgress)
    ∧ (statuses k).state = .succeeded

/-- Claim C3: `poll_account_creation` returns the status record of the
request exactly when some fetch, the first terminal one, reports
`SUCCEEDED`; it aborts the run exactly when some first-terminal fetch
reports `FAILED` or when `max_attempts` fetches are exhausted with every
fetch reporting `IN_PROGRESS`; it never returns normally in those two
cases. -/
theorem poll_account_creation_spec (statuses : Nat → CreateStatusRec) (n : Nat) :
    (∀ k, k < n → (∀ i, i < k → (statuses i).state = .inProgress) →
      (statuses k).state = .succeeded →
      poll_account_creation statuses n = (.returned (statuses k), k + 1))
    ∧ (∀ k, k < n → (∀ i, i < k → (statuses i).state = .inProgress) →
      (statuses k).state = .failed →
      poll_account_creation statuses n = (.aborted, k + 1))
    ∧ ((∀ i, i < n → (statuses i).state = .inProgress) →
      poll_account_creation statuses n = (.aborted, n))
    ∧ ((poll_account_creation statuses n).1 = .aborted
        ↔ ¬firstTerminalSucceeds statuses n) := by
  have hsucc : ∀ k, k < n → (∀ i, i < k → (statuses i).state = .inProgress) →
      (statuses k).state = .succeeded →
      poll_account_creation statuses n = (.returned (statuses k), k + 1) := by
    intro k hk hpre hs
    have := pollCreationGo_firstTerminal statuses n 0 k hk
      (fun i hi => by simpa using hpre i hi)
      (by simp only [Nat.zero_add]; rw [hs]; intro hF; cases hF)
    simp only [Nat.zero_add, hs, if_pos] at this
    simpa [poll_account_creation] using this
  refine ⟨hsucc, ?_, ?_, ?_⟩
  · intro k hk hpre hf
    have := pollCreationGo_firstTerminal statuses n 0 k hk
      (fun i hi => by simpa using hpre i hi)
      (by simp only [Nat.zero_add]; rw [hf]; intro hF; cases hF)
    simp only [Nat.zero_add, hf] at this
    simpa [poll_account_creation] using this
  · intro h
    have := pollCreationGo_allInProgress statuses n 0 (fun i hi => by
      simpa using h i hi)
    simpa [poll_account_creation] using this
  · constructor
    · intro hab hex
      obtain ⟨k, hk, hpre, hs⟩ := hex
      rw [hsucc k hk hpre hs] at hab
      cases hab
    · intro hnex
      by_cases hall : ∀ i, i < n → (statuses i).state = .inProgress
      · have := pollCreationGo_allInProgress statuses n 0 (fun i hi => by
          simpa using hall i hi)
        simp [poll_account_creation, this]
      · push_neg at hall
        have hex : ∃ i, i < n ∧ (statuses i).state ≠ .inProgress := hall
        set k := Nat.find hex with hkdef
        obtain ⟨hkn, hkt⟩ := Nat.find_spec hex
        have hpre : ∀ i, i < k → (statuses i).state = .inProgress := by
          intro i hi
          by_contra hni
          exact Nat.find_min hex hi ⟨Nat.lt_trans hi hkn, hni⟩
        have hks : (statuses k).state ≠ .succeeded := by
          intro hs
          exact hnex ⟨k, hkn, hpre, hs⟩
        have := pollCreationGo_firstTerminal statuses n 0 k hkn
          (fun i hi => by simpa using hpre i hi)
          (by simpa using hkt)
        simp only [Nat.zero_add] at this
        rw [if_neg hks] at this
        simp [poll_account_creation, this]

/-- Witness for `poll_account_creation_spec`: two `IN_PROGRESS` fetches
followed by a `SUCCEEDED` fetch with `max_attempts = 5` yields the third
status record after 3 fetches. -/
theorem poll_account_creation_spec_witness :
    poll_account_creation
        (fun i => if i < 2 then ⟨.inProgress, "", ""⟩
                  else ⟨.succeeded, "123456789012", ""⟩) 5
      = (.returned ⟨.succeeded, "123456789012", ""⟩, 3) := by
  exact (poll_account_creation_spec
      (fun i => if i < 2 then ⟨.inProgress, "", ""⟩
                else ⟨.succeeded, "123456789012", ""⟩) 5).1
    2 (by decide) (by decide) (by decide)

/-! ### `_close_all_accounts` (src/main.py lines 291-384) -/

/-- A member account as listed by `list_member_accounts`: the fields of
the provider's account record the bulk-closure loop reads. -/
structure Acct where
  id : String
  name : String
  email : String
  status : String
  deriving DecidableEq

/-- An entry of the `closed` bucket:
`{"account_id": ..., "account_name": ..., "status": final_status}`. -/
structure ClosedEntry where
  account_id : String
  account_name : String
  status : String
  deriving DecidableEq

/-- An entry of the `failed` bucket:
`{"account_id": ..., "account_name": ..., "error": str(e)}`. -/
structure FailedEntry where
  account_id : String
  account_name : String
  error : String
  deriving DecidableEq

/-- An entry of the `skipped` bucket:
`{"account_id": ..., "account_name": ..., "status": ...}`. -/
structure SkippedEntry where
  account_id : String
  account_name : String
  status : String
  deriving DecidableEq

/-- The structured output of `_close_all_accounts`. -/
structure BulkOutput where
  closed : List ClosedEntry
  failed : List FailedEntry
  skipped : List SkippedEntry
  total : Nat
  closed_count : Nat
  failed_count : Nat
  skipped_count : Nat

/-- The per-account loop of `_close_all_accounts`: `outcome a` models the
effect of `close_account` followed by polling on account `a` — `ok st`
when it completes with final status `st` (or `CLOSE_REQUESTED` under
`--no-wait`), `error msg` when an exception with message `msg` is raised.
An exception is caught, recorded in `failed`, and the loop continues. -/
def closeLoop (outcome : Acct → Except String String) :
    List Acct → List ClosedEntry × List FailedEntry
  | [] => ([], [])
  | a :: rest =>
    let r := closeLoop outcome rest
    match outcome a with
    | Except.ok st => (⟨a.id, a.name, st⟩ :: r.1, r.2)
    | Except.error e => (r.1, ⟨a.id, a.name, e⟩ :: r.2)

/-- `_close_all_accounts` from src/main.py, after the interactive
confirmation: split the listed accounts into active and non-active,
record the non-active ones as skipped, close the active ones one by one,
and aggregate the three buckets with their counts.  (The early return
when no account is active produces the same record with empty `closed`
and `failed` buckets.) -/
def close_all_accounts (outcome : Acct → Except String String)
    (accounts : List Acct) : BulkOutput :=
  let activeAccounts := accounts.filter (fun a => a.status == "ACTIVE")
  let skippedAccounts := accounts.filter (fun a => !(a.status == "ACTIVE"))
  let skipped := skippedAccounts.map
    (fun a => (⟨a.id, a.name, a.status⟩ : SkippedEntry))
  if activeAccounts.isEmpty then
    { closed := [], failed := [], skipped := skipped,
      total := accounts.length, closed_count := 0, failed_count := 0,
      skipped_count := skipped.length }
  else
    let cf := closeLoop outcome activeAccounts
    { closed := cf.1, failed := cf.2, skipped := skipped,
      total := accounts.length, closed_count := cf.1.length,
      failed_count := cf.2.length, skipped_count := skipped.length }

theorem close_all_accounts_eq (outcome : Acct → Except String String)
    (accounts : List Acct) :
    close_all_accounts outcome accounts =
      { closed := (closeLoop outcome
          (accounts.filter (fun a => a.status == "ACTIVE"))).1,
        failed := (closeLoop outcome
          (accounts.filter (fun a => a.status == "ACTIVE"))).2,
        skipped := (accounts.filter (fun a => !(a.status == "ACTIVE"))).map
          (fun a => (⟨a.id, a.name, a.status⟩ : SkippedEntry)),
        total := accounts.length,
        closed_count := (closeLoop outcome
          (accounts.filter (fun a => a.status == "ACTIVE"))).1.length,
        failed_count := (closeLoop outcome
          (accounts.filter (fun a => a.status == "ACTIVE"))).2.length,
        skipped_count := ((accounts.filter
          (fun a => !(a.status == "ACTIVE"))).map
          (fun a => (⟨a.id, a.name, a.status⟩ : SkippedEntry))).length } := by
  by_cases hempty :
      (accounts.filter (fun a => a.status == "ACTIVE")).isEmpty = true
  · have hnil := List.isEmpty_iff.mp hempty
    simp only [close_all_accounts]
    rw [hnil]
    simp [closeLoop]
  · simp only [close_all_accounts]
    rw [if_neg hempty]

theorem closeLoop_length (outcome : Acct → Except String String) :
    ∀ l : List Acct,
      (closeLoop outcome l).1.length + (closeLoop outcome l).2.length = l.length
  | [] => rfl
  | a :: rest => by
    have ih := closeLoop_length outcome rest
    rcases h : outcome a with msg | st
    · simp only [closeLoop, h]
      simpa using by omega
    · simp only [closeLoop, h]
      simpa using by omega

theorem closeLoop_mem_closed (outcome : Acct → Except String String) :
    ∀ {l : List Acct} {a : Acct} {st : String}, a ∈ l → outcome a = Except.ok st →
      (⟨a.id, a.name, st⟩ : ClosedEntry) ∈ (closeLoop outcome l).1
  | b :: rest, a, st, ha, hok => by
    rcases List.mem_cons.mp ha with rfl | ha'
    · simp [closeLoop, hok]
    · have ih := closeLoop_mem_closed outcome ha' hok
      rcases h : outcome b with msg | st'
      · simpa [closeLoop, h] using ih
      · simp [closeLoop, h]
        exact Or.inr ih

theorem closeLoop_mem_failed (outcome : Acct → Except String String) :
    ∀ {l : List Acct} {a : Acct} {msg : String}, a ∈ l →
      outcome a = Except.error msg →
      (⟨a.id, a.name, msg⟩ : FailedEntry) ∈ (closeLoop outcome l).2
  | b :: rest, a, msg, ha, herr => by
    rcases List.mem_cons.mp ha with rfl | ha'
    · simp [closeLoop, herr]
    · have ih := closeLoop_mem_failed outcome ha' herr
      rcases h : outcome b with msg' | st'
      · simp [closeLoop, h]
        exact Or.inr ih
      · simpa [closeLoop, h] using ih

theorem closeLoop_closed_src (outcome : Acct → Except String String) :
    ∀ {l : List Acct} {e : ClosedEntry}, e ∈ (closeLoop outcome l).1 →
      ∃ a, a ∈ l ∧ e.account_id = a.id ∧ outcome a = Except.ok e.status
  | [], e, he => by simp [closeLoop] at he
  | b :: rest, e, he => by
    rcases h : outcome b with msg | st
    · rw [show (closeLoop outcome (b :: rest)) =
          ((closeLoop outcome rest).1,
            ⟨b.id, b.name, msg⟩ :: (closeLoop outcome rest).2) by
          simp [closeLoop, h]] at he
      obtain ⟨a, ha, hid, hok⟩ := closeLoop_closed_src outcome he
      exact ⟨a, List.mem_cons_of_mem b ha, hid, hok⟩
    · rw [show (closeLoop outcome (b :: rest)) =
          (⟨b.id, b.name, st⟩ :: (closeLoop outcome rest).1,
            (closeLoop outcome rest).2) by
          simp [closeLoop, h]] at he
      rcases List.mem_cons.mp he with rfl | he'
      · exact ⟨b, List.mem_cons_self b rest, rfl, h⟩
      · obtain ⟨a, ha, hid, hok⟩ := closeLoop_closed_src outcome he'
        exact ⟨a, List.mem_cons_of_mem b ha, hid, hok⟩

theorem closeLoop_failed_src (outcome : Acct → Except String String) :
    ∀ {l : List Acct} {e : FailedEntry}, e ∈ (closeLoop outcome l).2 →
      ∃ a, a ∈ l ∧ e.account_id = a.id ∧ outcome a = Except.error e.error
  | [], e, he => by simp [closeLoop] at he
  | b :: rest, e, he => by
    rcases h : outcome b with msg | st
    · rw [show (closeLoop outcome (b :: rest)) =
          ((closeLoop outcome rest).1,
            ⟨b.id, b.name, msg⟩ :: (closeLoop outcome rest).2) by
          simp [closeLoop, h]] at he
      rcases List.mem_cons.mp he with rfl | he'
      · exact ⟨b, List.mem_cons_self b rest, rfl, h⟩
      · obtain ⟨a, ha, hid, herr⟩ := closeLoop_failed_src outcome he'
        exact ⟨a, List.mem_cons_of_mem b ha, hid, herr⟩
    · rw [show (closeLoop outcome (b :: rest)) =
          (⟨b.id, b.name, st⟩ :: (closeLoop outcome rest).1,
            (closeLoop outcome rest).2) by
          simp [closeLoop, h]] at he
      obtain ⟨a, ha, hid, herr⟩ := closeLoop_failed_src outcome he
      exact ⟨a, List.mem_cons_of_mem b ha, hid, herr⟩

theorem filter_length_split {α : Type} (p : α → Bool) (l : List α) :
    (l.filter p).length + (l.filter (fun a => !(p a))).length = l.length := by
  induction l with
  | nil => rfl
  | cons a t ih =>
    by_cases h : p a = true
    · simp [List.filter_cons, h]
      omega
    · rw [Bool.not_eq_true] at h
      simp [List.filter_cons, h]
      omega

theorem mem_active_iff {a : Acct} {accounts : List Acct} :
    a ∈ accounts.filter (fun a => a.status == "ACTIVE")
      ↔ a ∈ accounts ∧ a.status = "ACTIVE" := by
  simp [List.mem_filter]

theorem mem_inactive_iff {a : Acct} {accounts : List Acct} :
    a ∈ accounts.filter (fun a => !(a.status == "ACTIVE"))
      ↔ a ∈ accounts ∧ a.status ≠ "ACTIVE" := by
  simp [List.mem_filter]

/-- Claim C4: in bulk closure, with pairwise distinct account ids, every
listed member account lands in exactly one of the three buckets:
non-`ACTIVE` accounts are skipped; an active account whose closure raises
goes to `failed` without stopping the processing of the other active
accounts (whose own buckets are unaffected); an active account whose
closure completes goes to `closed`; the three counts equal the bucket
sizes and the bucket sizes sum to the number of listed accounts. -/
theorem close_all_accounts_spec (outcome : Acct → Except String String)
    (accounts : List Acct) (hnd : (accounts.map Acct.id).Nodup)
    (out : BulkOutput) (hout : out = close_all_accounts outcome accounts) :
    (out.closed_count = out.closed.length
      ∧ out.failed_count = out.failed.length
      ∧ out.skipped_count = out.skipped.length
      ∧ out.total = accounts.length)
    ∧ out.closed.length + out.failed.length + out.skipped.length
        = accounts.length
    ∧ (∀ a, a ∈ accounts → a.status ≠ "ACTIVE" →
        (⟨a.id, a.name, a.status⟩ : SkippedEntry) ∈ out.skipped
        ∧ (∀ e, e ∈ out.closed → e.account_id ≠ a.id)
        ∧ (∀ e, e ∈ out.failed → e.account_id ≠ a.id))
    ∧ (∀ a, a ∈ accounts → a.status = "ACTIVE" →
        (∀ st, outcome a = Except.ok st →
          (⟨a.id, a.name, st⟩ : ClosedEntry) ∈ out.closed
          ∧ (∀ e, e ∈ out.failed → e.account_id ≠ a.id)
          ∧ (∀ e, e ∈ out.skipped → e.account_id ≠ a.id))
        ∧ (∀ msg, outcome a = Except.error msg →
          (⟨a.id, a.name, msg⟩ : FailedEntry) ∈ out.failed
          ∧ (∀ e, e ∈ out.closed → e.account_id ≠ a.id)
          ∧ (∀ e, e ∈ out.skipped → e.account_id ≠ a.id))) := by
  have hinj : ∀ a, a ∈ accounts → ∀ b, b ∈ accounts → a.id = b.id → a = b :=
    fun a ha b hb h => List.inj_on_of_nodup_map hnd ha hb h
  subst hout
  rw [close_all_accounts_eq]
  refine ⟨⟨rfl, rfl, rfl, rfl⟩, ?_, ?_, ?_⟩
  · have h1 := closeLoop_length outcome
      (accounts.filter (fun a => a.status == "ACTIVE"))
    have h2 := filter_length_split (fun a : Acct => a.status == "ACTIVE") accounts
    simp only [List.length_map]
    omega
  · intro a ha hstat
    refine ⟨?_, ?_, ?_⟩
    · exact List.mem_map.mpr ⟨a, mem_inactive_iff.mpr ⟨ha, hstat⟩, rfl⟩
    · intro e he hid
      obtain ⟨b, hb, hbid, _⟩ := closeLoop_closed_src outcome he
      obtain ⟨hbmem, hbact⟩ := mem_active_iff.mp hb
      have : b = a := hinj b hbmem a ha (by rw [← hbid, hid])
      rw [this] at hbact
      exact hstat hbact
    · intro e he hid
      obtain ⟨b, hb, hbid, _⟩ := closeLoop_failed_src outcome he
      obtain ⟨hbmem, hbact⟩ := mem_active_iff.mp hb
      have : b = a := hinj b hbmem a ha (by rw [← hbid, hid])
      rw [this] at hbact
      exact hstat hbact
  · intro a ha hstat
    have haact : a ∈ accounts.filter (fun a => a.status == "ACTIVE") :=
      mem_active_iff.mpr ⟨ha, hstat⟩
    constructor
    · intro st hok
      refine ⟨closeLoop_mem_closed outcome haact hok, ?_, ?_⟩
      · intro e he hid
        obtain ⟨b, hb, hbid, hberr⟩ := closeLoop_failed_src outcome he
        obtain ⟨hbmem, _⟩ := mem_active_iff.mp hb
        have hba : b = a := hinj b hbmem a ha (by rw [← hbid, hid])
        rw [hba, hok] at hberr
        cases hberr
      · intro e he hid
        obtain ⟨b, hb, hfb⟩ := List.mem_map.mp he
        obtain ⟨hbmem, hbstat⟩ := mem_inactive_iff.mp hb
        have hbid : e.account_id = b.id := by rw [← hfb]
        have hba : b = a := hinj b hbmem a ha (by rw [← hbid, hid])
        rw [hba] at hbstat
        exact hbstat hstat
    · intro msg herr
      refine ⟨closeLoop_mem_failed outcome haact herr, ?_, ?_⟩
      · intro e he hid
        obtain ⟨b, hb, hbid, hbok⟩ := closeLoop_closed_src outcome he
        obtain ⟨hbmem, _⟩ := mem_active_iff.mp hb
        have hba : b = a := hinj b hbmem a ha (by rw [← hbid, hid])
        rw [hba, herr] at hbok
        cases hbok
      · intro e he hid
        obtain ⟨b, hb, hfb⟩ := List.mem_map.mp he
        obtain ⟨hbmem, hbstat⟩ := mem_inactive_iff.mp hb
        have hbid : e.account_id = b.id := by rw [← hfb]
        have hba : b = a := hinj b hbmem a ha (by rw [← hbid, hid])
        rw [hba] at hbstat
        exact hbstat hstat

/-- The bulk-closure example of the claim: three active member accounts
and two already-suspended ones. -/
def exAccounts : List Acct :=
  [⟨"111111111111", "m1", "m1@example.com", "ACTIVE"⟩,
   ⟨"222222222222", "m2", "m2@example.com", "ACTIVE"⟩,
   ⟨"333333333333", "m3", "m3@example.com", "ACTIVE"⟩,
   ⟨"444444444444", "m4", "m4@example.com", "SUSPENDED"⟩,
   ⟨"555555555555", "m5", "m5@example.com", "SUSPENDED"⟩]

/-- Closure of the second active account raises; the others complete. -/
def exOutcome : Acct → Except String String :=
  fun a => if a.id = "222222222222" then Except.error "boom"
           else Except.ok "SUSPENDED"

/-- Witness for `close_all_accounts_spec`: on the 3-active + 2-suspended
example with account 2 of the 3 raising, the counts are 2/1/2 and the
raising account's entry is in the `failed` bucket. -/
theorem close_all_accounts_spec_witness :
    (close_all_accounts exOutcome exAccounts).closed_count = 2
    ∧ (close_all_accounts exOutcome exAccounts).failed_count = 1
    ∧ (close_all_accounts exOutcome exAccounts).skipped_count = 2
    ∧ (⟨"222222222222", "m2", "boom"⟩ : FailedEntry)
        ∈ (close_all_accounts exOutcome exAccounts).failed :=
  ⟨by decide, by decide, by decide,
   (((close_all_accounts_spec exOutcome exAccounts (by decide)
        (close_all_accounts exOutcome exAccounts) rfl).2.2.2
      ⟨"222222222222", "m2", "m2@example.com", "ACTIVE"⟩
      (by decide) rfl).2 "boom" (by rfl)).1⟩

/-! ### `validate_account_access` (src/account_creator.py lines 97-130) -/

/-- The retry loop of `validate_account_access`: `succ i` says whether
the `i`-th (1-based) validation attempt — assume-role plus the identity
check through the temporary credentials — succeeds.  The remaining
arguments are the 1-based index of the current attempt, the current
delay, and the number of attempts remaining (the current one included).
The value is `(result, sleeps)`: the returned boolean and the list of
`time.sleep` durations in order.  On a failed attempt that is not the
last, the loop sleeps `delay` seconds and doubles the delay, capping it
at `maxDelay`; on the last failed attempt it returns `False` with no
further sleep.  The function never exits the process. -/
def validateLoop (succ : Nat → Bool) (maxDelay : Nat) :
    Nat → Nat → Nat → Bool × List Nat
  | _, _, 0 => (false, [])
  | attempt, delay, rem + 1 =>
    if succ attempt then (true, [])
    else if 0 < rem then
      let r := validateLoop succ maxDelay (attempt + 1)
        (min (delay * 2) maxDelay) rem
      (r.1, delay :: r.2)
    else (false, [])

/-- `validate_account_access` from src/account_creator.py. -/
def validate_account_access (succ : Nat → Bool)
    (maxAttempts initialDelay maxDelay : Nat) : Bool × List Nat :=
  validateLoop succ maxDelay 1 initialDelay maxAttempts

theorem validateLoop_fail_step (succ : Nat → Bool)
    (maxDelay attempt delay rem : Nat)
    (hf : succ attempt = false) (hrem : 0 < rem) :
    validateLoop succ maxDelay attempt delay (rem + 1) =
      ((validateLoop succ maxDelay (attempt + 1)
          (min (delay * 2) maxDelay) rem).1,
        delay :: (validateLoop succ maxDelay (attempt + 1)
          (min (delay * 2) maxDelay) rem).2) := by
  simp [validateLoop, hf, hrem]

theorem validateLoop_last_fail (succ : Nat → Bool)
    (maxDelay attempt delay : Nat) (hf : succ attempt = false) :
    validateLoop succ maxDelay attempt delay 1 = (false, []) := by
  rw [show (1 : Nat) = 0 + 1 from rfl]
  simp [validateLoop, hf]

/-- Claim C5: in every run of `validate_account_access` with
`initial_delay=5`, `max_delay=30`, `max_attempts=4` in which every
attempt fails, the observed sleeps are exactly `5, 10, 20` — the delay
doubles and is capped at `max_delay`, with no sleep after the final
attempt — and the function returns `False` (a soft failure; the loop has
no abort path). -/
theorem validate_account_access_spec (succ : Nat → Bool)
    (h : ∀ i, 1 ≤ i → i ≤ 4 → succ i = false) :
    validate_account_access succ 4 5 30 = (false, [5, 10, 20]) := by
  have h1 := h 1 (by omega) (by omega)
  have h2 := h 2 (by omega) (by omega)
  have h3 := h 3 (by omega) (by omega)
  have h4 := h 4 (by omega) (by omega)
  show validateLoop succ 30 1 5 4 = (false, [5, 10, 20])
  rw [show (4 : Nat) = 3 + 1 from rfl,
    validateLoop_fail_step succ 30 1 5 3 h1 (by omega)]
  norm_num
  rw [show (3 : Nat) = 2 + 1 from rfl,
    validateLoop_fail_step succ 30 2 10 2 h2 (by omega)]
  norm_num
  rw [show (2 : Nat) = 1 + 1 from rfl,
    validateLoop_fail_step succ 30 3 20 1 h3 (by omega)]
  norm_num
  rw [validateLoop_last_fail succ 30 4 30 h4]
  exact ⟨rfl, rfl⟩

/-- Witness for `validate_account_access_spec`: the oracle on which every
attempt fails. -/
theorem validate_account_access_spec_witness :
    validate_account_access (fun _ => false) 4 5 30 = (false, [5, 10, 20]) :=
  validate_account_access_spec (fun _ => false) (fun _ _ _ => rfl)

/-! ### `get_session` (src/ssm_client.py lines 6-19) -/

/-- The session `get_session` builds, by provenance: from a named
profile, from temporary credentials returned by assuming a role (tagged
with the session name), or from default ambient credentials; each carries
the region name passed to the session constructor. -/
inductive Session where
  | fromProfile (profile : String) (region : Option String)
  | fromAssumedRole (roleArn sessionName : String) (region : Option String)
  | fromDefault (region : Option String)
  deriving DecidableEq

/-- `get_session` from src/ssm_client.py: `if profile_name:` wins, else
`if role_arn:` assumes the role with `RoleSessionName=session_name`,
else a bare session; `region_name` is passed through unchanged in every
branch. -/
def get_session (profileName roleArn regionName : Option String)
    (sessionName : String) : Session :=
  if pyTruthy profileName then
    Session.fromProfile (profileName.getD "") regionName
  else if pyTruthy roleArn then
    Session.fromAssumedRole (roleArn.getD "") sessionName regionName
  else
    Session.fromDefault regionName

/-- The `region_name` the built session carries. -/
def Session.region : Session → Option String
  | Session.fromProfile _ r => r
  | Session.fromAssumedRole _ _ r => r
  | Session.fromDefault r => r

/-- Claim C6 counterexample: the original claim says that when region is
unspecified it defaults to a fixed fallback region — refuted: with no
profile, no role and no region, the session's region is `none`; no
fallback region is substituted, so no fixed region `r` makes the
session's region `some r`. -/
theorem get_session_claim_counterexample :
    (get_session none none none "account-lifecycle").region = none
    ∧ ¬∃ r : String,
        (get_session none none none "account-lifecycle").region = some r := by
  refine ⟨rfl, ?_⟩
  rintro ⟨r, hr⟩
  exact Option.noConfusion hr

/-- Claim C6 (amended): `get_session` resolves identity with the claimed
precedence — a truthy `profile_name` wins and `role_arn` is then ignored;
else a truthy `role_arn` is assumed under `session_name`; else default
ambient credentials — but the region is passed through unchanged
(`None` stays `None`); no fixed fallback region is applied by this
code. -/
theorem get_session_spec (p a r : Option String) (n : String) :
    (pyTruthy p = true →
      get_session p a r n = Session.fromProfile (p.getD "") r)
    ∧ (pyTruthy p = false → pyTruthy a = true →
      get_session p a r n = Session.fromAssumedRole (a.getD "") n r)
    ∧ (pyTruthy p = false → pyTruthy a = false →
      get_session p a r n = Session.fromDefault r)
    ∧ (get_session p a r n).region = r := by
  refine ⟨?_, ?_, ?_, ?_⟩
  · intro hp; simp [get_session, hp]
  · intro hp ha; simp [get_session, hp, ha]
  · intro hp ha; simp [get_session, hp, ha]
  · unfold get_session
    by_cases hp : pyTruthy p = true
    · simp [hp, Session.region]
    · by_cases ha : pyTruthy a = true
      · simp [hp, ha, Session.region]
      · simp [hp, ha, Session.region]

/-- Witness for `get_session_spec`: with both a profile and a role ARN
given, the profile wins and the role ARN is ignored. -/
theorem get_session_spec_witness :
    get_session (some "mgmt") (some "arn:aws:iam::111111111111:role/Admin")
        (some "us-east-1") "account-lifecycle"
      = Session.fromProfile "mgmt" (some "us-east-1") :=
  (get_session_spec (some "mgmt")
      (some "arn:aws:iam::111111111111:role/Admin")
      (some "us-east-1") "account-lifecycle").1 (by decide)

/-! ### `close_account` (src/account_closer.py lines 29-35) -/

/-- The effect of the provider's `close_account` call: success, the
`AccountAlreadyClosedException`, or any other exception. -/
inductive CloseCallOutcome where
  | ok
  | alreadyClosed
  | raised (msg : String)
  deriving DecidableEq

/-- `close_account` from src/account_closer.py: returns `True` on
success, catches only `AccountAlreadyClosedException` (also returning
`True`); any other exception propagates. -/
def close_account : CloseCallOutcome → Except String Bool
  | CloseCallOutcome.ok => Except.ok true
  | CloseCallOutcome.alreadyClosed => Except.ok true
  | CloseCallOutcome.raised e => Except.error e

/-- Claim C7: `close_account` reports success both when the provider call
succeeds and when it signals already-closed, so closing the same account
twice (second call raising `AccountAlreadyClosedException`) reports
success both times; the already-closed signal is never converted into an
error. -/
theorem close_account_spec :
    close_account CloseCallOutcome.ok = Except.ok true
    ∧ close_account CloseCallOutcome.alreadyClosed = Except.ok true
    ∧ (∀ e : String,
        close_account CloseCallOutcome.alreadyClosed ≠ Except.error e) := by
  refine ⟨rfl, rfl, ?_⟩
  intro e h
  cases h

/-! ### `increment_unique_number` (src/ssm_client.py lines 35-45) -/

/-- `increment_unique_number` from src/ssm_client.py: the SSM parameter
store is a map from parameter names to stored string values; the
function computes `new_value = current_value + 1`, writes it with
`Overwrite=True` (replacing whatever is stored, regardless of its
value), and returns `new_value`.  The result is the updated store and
the returned integer. -/
def increment_unique_number (store : String → Option String)
    (parameterPath : String) (currentValue : Int) :
    (String → Option String) × Int :=
  let newValue := currentValue + 1
  (fun p => if p = parameterPath then some (toString newValue) else store p,
    newValue)

/-- Claim C8: for every observed value, `increment_unique_number` writes
exactly `observed + 1` to the named parameter unconditionally — the
written value is the same whatever the store currently holds
(last-writer-wins overwrite, not compare-and-swap) — returns
`observed + 1`, and leaves every other parameter unchanged. -/
theorem increment_unique_number_spec
    (store store2 : String → Option String) (parameterPath : String) (v : Int) :
    (increment_unique_number store parameterPath v).2 = v + 1
    ∧ (increment_unique_number store parameterPath v).1 parameterPath
        = some (toString (v + 1))
    ∧ (increment_unique_number store parameterPath v).1 parameterPath
        = (increment_unique_number store2 parameterPath v).1 parameterPath
    ∧ (∀ p, p ≠ parameterPath →
        (increment_unique_number store parameterPath v).1 p = store p) := by
  refine ⟨rfl, by simp [increment_unique_number],
    by simp [increment_unique_number], ?_⟩
  intro p hp
  simp [increment_unique_number, hp]

/-- Witness for `increment_unique_number_spec`: incrementing from 41 on
an empty store returns 42 and leaves another path unset. -/
theorem increment_unique_number_spec_witness :
    (increment_unique_number (fun _ => none) "/lifecycle/unique" 41).2 = 42
    ∧ (increment_unique_number (fun _ => none) "/lifecycle/unique" 41).1
        "/lifecycle/other" = none :=
  ⟨(increment_unique_number_spec (fun _ => none) (fun _ => none)
      "/lifecycle/unique" 41).1,
   (increment_unique_number_spec (fun _ => none) (fun _ => none)
      "/lifecycle/unique" 41).2.2.2 "/lifecycle/other" (by decide)⟩

/-! ### `build_output` (src/account_creator.py lines 133-144) -/

/-- The creation result record `build_output` returns. -/
structure CreationOutput where
  account_id : String
  account_name : String
  email : String
  ou_id : Option String
  ou_name : Option String
  validated : Bool
  created_at : String
  status : String
  deriving DecidableEq

/-- `build_output` from src/account_creator.py: `created_at` falls back
to the current timestamp (`now`) when the argument is falsy, and
`status` is the constant string `SUCCEEDED`. -/
def build_output (account_id account_name email : String)
    (ou_id ou_name : Option String) (validated : Bool)
    (created_at : Option String) (now : String) : CreationOutput :=
  { account_id := account_id, account_name := account_name, email := email,
    ou_id := ou_id, ou_name := ou_name, validated := validated,
    created_at := if pyTruthy created_at then created_at.getD "" else now,
    status := "SUCCEEDED" }

/-- Claim C9: every creation result record produced by `build_output`
has `status = "SUCCEEDED"`, for every value of the `validated` flag — in
particular also when access validation failed (`validated = false`). -/
theorem build_output_status_spec (account_id account_name email : String)
    (ou_id ou_name : Option String) (validated : Bool)
    (created_at : Option String) (now : String) :
    (build_output account_id account_name email ou_id ou_name validated
        created_at now).status = "SUCCEEDED"
    ∧ (build_output account_id account_name email ou_id ou_name false
        created_at now).status = "SUCCEEDED" :=
  ⟨rfl, rfl⟩

/-! ### `merge_cli_overrides` (src/config.py lines 18-37) -/

/-- The configuration keys `merge_cli_overrides` may override, each
paired with the CLI argument that feeds it (in the order of the `if`
chain): `ou_name` feeds `default_ou_name` and `email` feeds
`email_override`; the rest are same-named. -/
def cliOverridePairs : List (String × String) :=
  [("management_role_arn", "management_role_arn"),
   ("automation_role_arn", "automation_role_arn"),
   ("mgmt_profile", "mgmt_profile"),
   ("automation_profile", "automation_profile"),
   ("default_ou_name", "ou_name"),
   ("ou_id", "ou_id"),
   ("email_override", "email")]

/-- One conditional insert into the `overrides` dict:
`if cli_args.get(key):` adds the entry. -/
def overrideEntry (cli : String → Option String) (q : String × String) :
    Option (String × String) :=
  if pyTruthy (cli q.2) then some (q.1, (cli q.2).getD "") else none

/-- The `overrides` dict built by the seven `if` statements, as an
association list (its keys are pairwise distinct). -/
def buildOverrides (cli : String → Option String) : List (String × String) :=
  cliOverridePairs.filterMap (overrideEntry cli)

/-- `merge_cli_overrides` from src/config.py:
`{**config, **overrides}` — an entry of `overrides` wins, every other
key keeps its configured value.  Dicts are modelled as maps from keys to
optional string values (`none` for an absent key). -/
def merge_cli_overrides (config cli : String → Option String) :
    String → Option String :=
  fun k =>
    match (buildOverrides cli).lookup k with
    | some v => some v
    | none => config k

theorem lookup_cons_self {β : Type} (k : String) (v : β)
    (l : List (String × β)) : List.lookup k ((k, v) :: l) = some v := by
  simp [List.lookup_cons]

theorem lookup_cons_ne {β : Type} {k a : String} (v : β)
    (l : List (String × β)) (h : a ≠ k) :
    List.lookup k ((a, v) :: l) = List.lookup k l := by
  simp [List.lookup_cons, beq_false_of_ne (Ne.symm h)]

theorem overrideEntry_pos {cli : String → Option String}
    {q : String × String} (ht : pyTruthy (cli q.2) = true) :
    overrideEntry cli q = some (q.1, (cli q.2).getD "") := by
  simp [overrideEntry, ht]

theorem overrideEntry_neg {cli : String → Option String}
    {q : String × String} (ht : ¬pyTruthy (cli q.2) = true) :
    overrideEntry cli q = none := by
  simp [overrideEntry, (Bool.not_eq_true _).mp ht]

theorem lookup_overrideEntry_none (cli : String → Option String) :
    ∀ (l : List (String × String)) (k : String), (∀ q, q ∈ l → q.1 ≠ k) →
      (l.filterMap (overrideEntry cli)).lookup k = none
  | [], _, _ => rfl
  | q :: rest, k, h => by
    have hq : q.1 ≠ k := h q (List.mem_cons_self q rest)
    have ih := lookup_overrideEntry_none cli rest k
      (fun p hp => h p (List.mem_cons_of_mem q hp))
    by_cases ht : pyTruthy (cli q.2) = true
    · rw [List.filterMap_cons, overrideEntry_pos ht,
        lookup_cons_ne _ _ hq]
      exact ih
    · rw [List.filterMap_cons, overrideEntry_neg ht]
      exact ih

theorem lookup_overrideEntry (cli : String → Option String) :
    ∀ (l : List (String × String)) (pr : String × String), pr ∈ l →
      (l.map Prod.fst).Nodup →
      (l.filterMap (overrideEntry cli)).lookup pr.1
        = if pyTruthy (cli pr.2) then some ((cli pr.2).getD "") else none
  | q :: rest, pr, hpr, hnd => by
    rw [List.map_cons, List.nodup_cons] at hnd
    obtain ⟨hq_not, hnd_rest⟩ := hnd
    rcases List.mem_cons.mp hpr with rfl | hpr'
    · by_cases ht : pyTruthy (cli pr.2) = true
      · rw [List.filterMap_cons, overrideEntry_pos ht,
          lookup_cons_self, if_pos ht]
      · rw [List.filterMap_cons, overrideEntry_neg ht, if_neg ht]
        exact lookup_overrideEntry_none cli rest pr.1
          (fun p hp h => hq_not (h ▸ List.mem_map_of_mem Prod.fst hp))
    · have hne : q.1 ≠ pr.1 := by
        intro h
        exact hq_not (h ▸ List.mem_map_of_mem Prod.fst hpr')
      have ih := lookup_overrideEntry cli rest pr hpr' hnd_rest
      by_cases ht : pyTruthy (cli q.2) = true
      · rw [List.filterMap_cons, overrideEntry_pos ht,
          lookup_cons_ne _ _ hne]
        exact ih
      · rw [List.filterMap_cons, overrideEntry_neg ht]
        exact ih

/-- Claim C10: `merge_cli_overrides` leaves every configuration key
outside {management_role_arn, automation_role_arn, mgmt_profile,
automation_profile, default_ou_name, ou_id, email_override} unchanged,
and a key in that set takes the value of its corresponding CLI argument
exactly when that argument is present and truthy (falsy CLI values such
as `None` or the empty string never override the configuration). -/
theorem merge_cli_overrides_spec (config cli : String → Option String) :
    (∀ k, (∀ pr, pr ∈ cliOverridePairs → k ≠ pr.1) →
      merge_cli_overrides config cli k = config k)
    ∧ (∀ pr, pr ∈ cliOverridePairs →
      merge_cli_overrides config cli pr.1 =
        if pyTruthy (cli pr.2) then cli pr.2 else config pr.1) := by
  constructor
  · intro k hk
    unfold merge_cli_overrides buildOverrides
    rw [lookup_overrideEntry_none cli cliOverridePairs k
      (fun q hq h => hk q hq h.symm)]
  · intro pr hpr
    unfold merge_cli_overrides buildOverrides
    rw [lookup_overrideEntry cli cliOverridePairs pr hpr (by decide)]
    by_cases ht : pyTruthy (cli pr.2) = true
    · rw [if_pos ht, if_pos ht]
      cases hc : cli pr.2 with
      | none => rw [hc] at ht; exact absurd ht (by simp [pyTruthy])
      | some s => simp [hc]
    · rw [if_neg ht, if_neg ht]

/-- A sample configuration for the witness. -/
def exConfig : String → Option String :=
  fun k => if k = "region" then some "us-east-1"
           else if k = "default_ou_name" then some "Production" else none

/-- Sample CLI arguments for the witness: `--ou-name` given and truthy,
`--email` present but empty (falsy), everything else absent. -/
def exCli : String → Option String :=
  fun k => if k = "ou_name" then some "Sandbox"
           else if k = "email" then some "" else none

/-- Witness for `merge_cli_overrides_spec`: the untouched key `region`
keeps its configured value, the truthy `--ou-name` overrides
`default_ou_name`, and the falsy `--email` does not create or override
`email_override`. -/
theorem merge_cli_overrides_spec_witness :
    merge_cli_overrides exConfig exCli "region" = exConfig "region"
    ∧ merge_cli_overrides exConfig exCli "default_ou_name" = some "Sandbox"
    ∧ merge_cli_overrides exConfig exCli "email_override"
        = exConfig "email_override" :=
  ⟨(merge_cli_overrides_spec exConfig exCli).1 "region" (by decide),
   by rw [(merge_cli_overrides_spec exConfig exCli).2
       ("default_ou_name", "ou_name") (by decide)]; rfl,
   by rw [(merge_cli_overrides_spec exConfig exCli).2
       ("email_override", "email") (by decide)]; rfl⟩

end AccountLifecycle
